import Mathlib

/-!
Verification of the Unframe interactive exhibition wall (`src/App.jsx`,
plus an earlier variant of the app kept as an unnamed source file).

The development shallowly embeds the data model and the operations of the
program: message score vectors, the base themes and the per-card color
blend, the sentiment-classifier post-processing and fallback, the
like-toggle state machine over the external store, message submission,
the sorted/limited message list handed to the visitor view, and the admin
panel's statistics and CSV export.
-/

namespace UnframeWall

/-- The four fixed mood axes of a score vector. -/
inductive Axis : Type
  | POSITIVE
  | CALM
  | ENERGETIC
  | DEEP
deriving DecidableEq, Repr

/-- A four-axis score vector, as produced by the classifier and stored on
each message (`scores` field). Field order matches the JS object literal
insertion order `{POSITIVE, CALM, ENERGETIC, DEEP}`. -/
structure Scores where
  POSITIVE : Nat
  CALM : Nat
  ENERGETIC : Nat
  DEEP : Nat
deriving DecidableEq, Repr

/-- Look up one axis of a score vector (JS `scores[k]`). -/
def Scores.get (s : Scores) : Axis → Nat
  | .POSITIVE => s.POSITIVE
  | .CALM => s.CALM
  | .ENERGETIC => s.ENERGETIC
  | .DEEP => s.DEEP

/-- The fixed axis key order of the score object
(`Object.keys` / `Object.values` insertion order). -/
def axes : List Axis := [.POSITIVE, .CALM, .ENERGETIC, .DEEP]

/-- `Object.values(scores)` in insertion order. -/
def scoresValues (s : Scores) : List Nat :=
  [s.POSITIVE, s.CALM, s.ENERGETIC, s.DEEP]

/-- `Object.entries(scores)` in insertion order. -/
def scoreEntries (s : Scores) : List (Axis × Nat) :=
  [(.POSITIVE, s.POSITIVE), (.CALM, s.CALM), (.ENERGETIC, s.ENERGETIC), (.DEEP, s.DEEP)]

/-- The JS axis key names, as used for the CSV sentiment column. -/
def axisName : Axis → String
  | .POSITIVE => "POSITIVE"
  | .CALM => "CALM"
  | .ENERGETIC => "ENERGETIC"
  | .DEEP => "DEEP"

/-- One entry of `BASE_THEMES` (App.jsx lines 71-76): an RGB base color
plus display label and hex string. -/
structure BaseTheme where
  r : Nat
  g : Nat
  b : Nat
  label : String
  color : String
deriving DecidableEq, Repr

/-- `BASE_THEMES` from App.jsx lines 71-76. -/
def BASE_THEMES : Axis → BaseTheme
  | .POSITIVE => { r := 0, g := 74, b := 173, label := "Joy", color := "#004aad" }
  | .CALM => { r := 45, g := 212, b := 191, label := "Calm", color := "#2dd4bf" }
  | .ENERGETIC => { r := 245, g := 158, b := 11, label := "Power", color := "#f59e0b" }
  | .DEEP => { r := 139, g := 92, b := 246, label := "Deep", color := "#8b5cf6" }

/-- JS `Math.round` on a (nonnegative) rational: floor of `q + 1/2`. -/
def jsRound (q : ℚ) : ℤ := ⌊q + 1/2⌋

/-- `MessageCard.mixedColor` (App.jsx lines 368-374): per RGB channel, the
score-weighted sum of the four base colors divided by 100, then
`Math.round`. Returns the `(r, g, b)` triple of the produced
`rgb(r, g, b)` string. -/
def mixedColor (s : Scores) : ℤ × ℤ × ℤ :=
  let r : ℚ := ((s.POSITIVE * (BASE_THEMES .POSITIVE).r + s.CALM * (BASE_THEMES .CALM).r
      + s.ENERGETIC * (BASE_THEMES .ENERGETIC).r + s.DEEP * (BASE_THEMES .DEEP).r : ℕ) : ℚ) / 100
  let g : ℚ := ((s.POSITIVE * (BASE_THEMES .POSITIVE).g + s.CALM * (BASE_THEMES .CALM).g
      + s.ENERGETIC * (BASE_THEMES .ENERGETIC).g + s.DEEP * (BASE_THEMES .DEEP).g : ℕ) : ℚ) / 100
  let b : ℚ := ((s.POSITIVE * (BASE_THEMES .POSITIVE).b + s.CALM * (BASE_THEMES .CALM).b
      + s.ENERGETIC * (BASE_THEMES .ENERGETIC).b + s.DEEP * (BASE_THEMES .DEEP).b : ℕ) : ℚ) / 100
  (jsRound r, jsRound g, jsRound b)

/-- Stated from the spec's words (refinement side of the color claim): per
RGB channel, the sum over the four axes of `V[axis] * base_color[axis]`,
divided by 100 and rounded to the nearest integer. -/
def specBlendChannel (v : Scores) (channel : BaseTheme → Nat) : ℤ :=
  jsRound ((((axes.map (fun a => v.get a * channel (BASE_THEMES a))).sum : ℕ) : ℚ) / 100)

/-- Spec-side blended color: the three channels of `specBlendChannel`. -/
def specBlendColor (v : Scores) : ℤ × ℤ × ℤ :=
  (specBlendChannel v (fun t => t.r), specBlendChannel v (fun t => t.g),
    specBlendChannel v (fun t => t.b))

/-- One fallback draw of the classifier's failure path
(App.jsx line 265): `Math.floor(Math.random() * 50)`, where the
`Math.random` result is a rational in `[0, 1)`. -/
def fallbackDraw (q : ℚ) : ℤ := ⌊q * 50⌋

/-- `callGeminiAI` (App.jsx lines 244-268), abstracted over the network:
`response = some parsed` models a successful HTTP round trip whose body
parsed to the vector `parsed`; `response = none` models every failure
path (network error, non-ok status, parse failure), in which case four
independent `Math.random` draws `q1..q4` are consumed. On success, a
uniformly-25 parsed vector is replaced by the fixed vector
`{POSITIVE: 45, CALM: 20, ENERGETIC: 10, DEEP: 25}` (line 260). -/
def callGeminiAI (response : Option Scores) (q1 q2 q3 q4 : ℚ) : Scores :=
  match response with
  | some parsed =>
      if (scoresValues parsed).all (fun v => v == 25) then
        { POSITIVE := 45, CALM := 20, ENERGETIC := 10, DEEP := 25 }
      else parsed
  | none =>
      { POSITIVE := (fallbackDraw q1).toNat, CALM := (fallbackDraw q2).toNat,
        ENERGETIC := (fallbackDraw q3).toNat, DEEP := (fallbackDraw q4).toNat }

/-- Key of a like record: the owning identity and the liked message id
(the record lives at `users/{uid}/user_likes/{messageId}`). -/
structure LikeKey where
  user : String
  msg : String
deriving DecidableEq, Repr

/-- The store state that `toggleLike` reads and writes: the set of
existing like records (across all identities) and each message's `likes`
counter. -/
@[ext]
structure WallStore where
  records : Finset LikeKey
  likes : String → ℤ

/-- `toggleLike` (App.jsx lines 140-154) for identity `u` on message `m`,
with both sequential writes of the taken branch completing and no
interleaved writes: if the like record exists, delete it and decrement
the message's counter; otherwise create it and increment the counter. -/
def toggleLike (u m : String) (s : WallStore) : WallStore :=
  if (⟨u, m⟩ : LikeKey) ∈ s.records then
    { records := s.records.erase ⟨u, m⟩
      likes := fun x => if x = m then s.likes x - 1 else s.likes x }
  else
    { records := insert (⟨u, m⟩ : LikeKey) s.records
      likes := fun x => if x = m then s.likes x + 1 else s.likes x }

/-- Run a sequence of `toggleLike` calls, each given as the acting
identity paired with the target message id. -/
def applyToggles (ops : List (String × String)) (s : WallStore) : WallStore :=
  ops.foldl (fun st p => toggleLike p.1 p.2 st) s

/-- The documented invariant: every message's `likes` counter equals the
number of like records referencing that message id. -/
def Consistent (s : WallStore) : Prop :=
  ∀ m, s.likes m = ((s.records.filter (fun k => k.msg = m)).card : ℤ)

/-- The message record assembled by an accepted submission
(`msgData` of App.jsx lines 275-281, server timestamp placeholder
omitted). -/
structure MsgData where
  text : String
  scores : Scores
  likes : Nat
  userId : String
deriving DecidableEq, Repr

/-- Outcome of one `send` invocation: the record passed to the store
write (if any), the success confirmation handed to `onSuccess` (if the
write succeeded, paired with the store-assigned id), and the input text
and in-flight flag after the call completes. -/
structure SendResult where
  attempted : Option MsgData
  success : Option (MsgData × String)
  textAfter : String
  analyzingAfter : Bool
deriving DecidableEq, Repr

/-- JS `!text.trim()`: the text is empty or whitespace-only (stripping
whitespace leaves the empty string). -/
def isBlank (s : String) : Bool := s.data.all Char.isWhitespace

/-- `VisitorInput.send` (App.jsx lines 270-288), abstracted over the
classifier outcome (`classify`) and the store write (`writeResult`:
`some docId` on success with the assigned document id, `none` on a write
failure). Guard: empty/whitespace-only text (`!text.trim()`), an
in-flight submission, or
a missing identity return with no write and no state change; otherwise
the message record is built and written, and on success the confirmation
carries the record plus new id and the input is cleared (the `finally`
clause resets the in-flight flag either way). -/
def send (text : String) (isAnalyzing : Bool) (user : Option String)
    (classify : String → Scores) (writeResult : Option String) : SendResult :=
  if isBlank text = true ∨ isAnalyzing = true ∨ user = none then
    { attempted := none, success := none, textAfter := text, analyzingAfter := isAnalyzing }
  else
    match user with
    | none =>
        { attempted := none, success := none, textAfter := text,
          analyzingAfter := isAnalyzing }
    | some uid =>
        let msgData : MsgData :=
          { text := text, scores := classify text, likes := 0, userId := uid }
        match writeResult with
        | some docId =>
            { attempted := some msgData, success := some (msgData, docId),
              textAfter := "", analyzingAfter := false }
        | none =>
            { attempted := some msgData, success := none, textAfter := text,
              analyzingAfter := false }

/-- A message document as observed by the live subscription
(App.jsx line 133: store id plus document data; `likes`, `scores` and
`timestamp` may be absent on documents written by other program
variants). The `timestamp` field holds the `seconds` component used by
the sort. -/
structure Msg where
  id : String
  text : String
  userId : String
  likes : Option Nat
  scores : Option Scores
  timestamp : Option Int
deriving DecidableEq, Repr

/-- Sort key of the message subscription sort
(App.jsx line 134): `timestamp?.seconds || 0`. -/
def tsKey (m : Msg) : ℤ := m.timestamp.getD 0

/-- The JS comparator `(a, b) => (b.timestamp?.seconds || 0) -
(a.timestamp?.seconds || 0)` as a before-or-equal relation: `a` may
precede `b` exactly when the comparator is `≤ 0`, i.e. `tsKey b ≤ tsKey
a` (descending). -/
def msgLe (a b : Msg) : Bool := decide (tsKey b ≤ tsKey a)

/-- The `messages` state after the subscription handler's sort
(App.jsx lines 132-135): the snapshot sorted by timestamp descending
(stable, as JS `Array.prototype.sort` is). -/
def sortedMessages (msgs : List Msg) : List Msg := msgs.mergeSort msgLe

/-- The list handed to the visitor input view
(App.jsx line 195: `messages.slice(0, 10)`), which renders it in order. -/
def visitorMessages (msgs : List Msg) : List Msg := (sortedMessages msgs).take 10

/-- Per-message contribution to the admin stats sums (App.jsx lines
503-505): `if (m.scores) sums[k] += (m.scores[k] || 0)` — a message
without a scores object contributes 0. -/
def scoreOrZero (m : Msg) (k : Axis) : Nat :=
  match m.scores with
  | some s => s.get k
  | none => 0

/-- The per-axis sum of the admin stats. -/
def axisSum (msgs : List Msg) (k : Axis) : Nat :=
  (msgs.map (fun m => scoreOrZero m k)).sum

/-- The stats divisor (App.jsx line 501): `messages.length || 1`. -/
def statsTotal (msgs : List Msg) : Nat :=
  if msgs.length = 0 then 1 else msgs.length

/-- `AdminPanel.stats` (App.jsx lines 500-507): for each axis, the
rounded quotient of the axis sum by the divisor. -/
def stats (msgs : List Msg) : List (Axis × ℤ) :=
  axes.map (fun k => (k, jsRound ((axisSum msgs k : ℚ) / (statsTotal msgs : ℚ))))

/-- `m.text.replace(/"/g, '""')` (App.jsx line 511): double every
double-quote character. -/
def escQuotes (s : String) : String :=
  ⟨s.data.flatMap (fun c => if c = '"' then ['"', '"'] else [c])⟩

/-- The JS entry comparator `(a, b) => b[1] - a[1]` as a before-or-equal
relation: `a` may precede `b` exactly when `b.2 ≤ a.2` (score values
descending). -/
def entryLe (a b : Axis × Nat) : Bool := decide (b.2 ≤ a.2)

/-- `Object.entries(m.scores).sort((a, b) => b[1] - a[1])` (App.jsx
lines 511 and 610): the score entries sorted by value descending. -/
def sortScoreEntries (s : Scores) : List (Axis × Nat) :=
  (scoreEntries s).mergeSort entryLe

/-- The `[0][0]` index of the sorted entry list: the axis name printed in
the CSV sentiment column. The list provably has four entries, so the
head exists. -/
def topAxis (s : Scores) : Axis :=
  ((sortScoreEntries s).head (fun h => by
    simpa [sortScoreEntries, scoreEntries, List.length_mergeSort] using
      congrArg List.length h)).1

/-- One CSV row (App.jsx line 511). Dereferencing the sorted score
entries of a message whose `scores` field is absent throws in JS, so the
row is undefined (`none`) there. -/
def csvRow (m : Msg) : Option String :=
  match m.scores with
  | none => none
  | some s =>
      some ("\"" ++ m.id ++ "\",\"" ++ escQuotes m.text ++ "\",\"" ++ m.userId
        ++ "\"," ++ toString (m.likes.getD 0) ++ ",\"" ++ axisName (topAxis s) ++ "\"")

/-- `messages.map(m => ...)` over `csvRow`: the row list, or `none` as
soon as any row's serialization throws (the exception aborts the whole
map). -/
def csvRows : List Msg → Option (List String)
  | [] => some []
  | m :: ms =>
      match csvRow m, csvRows ms with
      | some r, some rs => some (r :: rs)
      | _, _ => none

/-- `AdminPanel.exportCSV` (App.jsx lines 509-517): the text content of
the produced blob — the fixed header line followed by one row per
message, joined with newlines. `none` models the thrown exception when
some row is undefined. -/
def exportCSV (msgs : List Msg) : Option String :=
  (csvRows msgs).map
    (fun rows => "ID,Content,UID,Likes,Sentiment\n" ++ String.intercalate "\n" rows)

/-- The message record written by `handleSubmit` of the earlier program
variant (unnamed source file, lines 72-89): only `text`, a server
timestamp and `userId` — no `scores` and no `likes` field. `docId` is the
store-assigned document id under which the record is later observed. -/
def handleSubmitRecord (docId text uid : String) (ts : Option Int) : Msg :=
  { id := docId, text := text, userId := uid, likes := none, scores := none,
    timestamp := ts }

lemma jsRound_natCast_div (n d : Nat) (hd : 0 < d) :
    jsRound ((n : ℚ) / (d : ℚ)) = (((2 * n + d) / (2 * d) : ℕ) : ℤ) := by
  unfold jsRound
  have hd' : (d : ℚ) ≠ 0 := by positivity
  have key : (n : ℚ) / (d : ℚ) + 1/2 = ((2 * n + d : ℕ) : ℚ) / ((2 * d : ℕ) : ℚ) := by
    push_cast
    field_simp
    ring
  rw [key, Rat.floor_natCast_div_natCast]
  simp [Int.ofNat_tdiv]

lemma jsRound_zero : jsRound 0 = 0 := by
  unfold jsRound
  rw [zero_add, Int.floor_eq_zero_iff]
  constructor <;> norm_num

/-- C2 -- For every message with score vector `V`, the derived card color
is, per RGB channel, the sum over the four axes of
`V[axis] * base_color[axis]` divided by 100, rounded to the nearest
integer; and `V = {POSITIVE: 100, CALM: 0, ENERGETIC: 0, DEEP: 0}` blends
to exactly the POSITIVE base color `rgb(0, 74, 173)`. -/
theorem mixedColor_is_spec_blend :
    (∀ v : Scores, mixedColor v = specBlendColor v) ∧
    mixedColor (Scores.mk 100 0 0 0) = (0, 74, 173) := by
  constructor
  · intro v
    simp only [mixedColor, specBlendColor, specBlendChannel, axes, List.map_cons,
      List.map_nil, List.sum_cons, List.sum_nil, Scores.get, Prod.mk.injEq]
    refine ⟨?_, ?_, ?_⟩ <;> · congr 1; push_cast; ring
  · have h0 := jsRound_natCast_div 0 100 (by omega)
    have h74 := jsRound_natCast_div 7400 100 (by omega)
    have h173 := jsRound_natCast_div 17300 100 (by omega)
    norm_num at h0 h74 h173
    simp only [mixedColor, BASE_THEMES]
    norm_num [h0, h74, h173]

/-- C3 -- If the classifier's response parses to the uniform vector
(every value exactly 25), the fixed non-uniform substitute
`{45, 20, 10, 25}` is returned instead; any parsed vector that is not
uniformly 25 is returned unchanged; and the substitute itself is not
uniform. -/
theorem callGeminiAI_uniform_policy (q1 q2 q3 q4 : ℚ) :
    (∀ parsed : Scores, (∀ v ∈ scoresValues parsed, v = 25) →
      callGeminiAI (some parsed) q1 q2 q3 q4 = Scores.mk 45 20 10 25) ∧
    (∀ parsed : Scores, (∃ v ∈ scoresValues parsed, v ≠ 25) →
      callGeminiAI (some parsed) q1 q2 q3 q4 = parsed) ∧
    ¬ (∀ v ∈ scoresValues (Scores.mk 45 20 10 25), v = 25) := by
  refine ⟨?_, ?_, by decide⟩
  · intro parsed h
    have hall : (scoresValues parsed).all (fun v => v == 25) = true := by
      rw [List.all_eq_true]
      intro v hv
      simpa using h v hv
    simp [callGeminiAI, hall]
  · intro parsed h
    obtain ⟨v, hv, hne⟩ := h
    have hall : (scoresValues parsed).all (fun v => v == 25) = false := by
      rw [List.all_eq_false]
      exact ⟨v, hv, by simpa using hne⟩
    simp [callGeminiAI, hall]

/-- Witness for C3 at the uniform vector and at a non-uniform vector. -/
theorem callGeminiAI_uniform_policy_witness :
    callGeminiAI (some (Scores.mk 25 25 25 25)) 0 0 0 0 = Scores.mk 45 20 10 25 ∧
    callGeminiAI (some (Scores.mk 60 25 10 5)) 0 0 0 0 = Scores.mk 60 25 10 5 := by
  constructor
  · exact (callGeminiAI_uniform_policy 0 0 0 0).1 _ (by decide)
  · exact (callGeminiAI_uniform_policy 0 0 0 0).2.1 _ ⟨60, by decide, by decide⟩

/-- C4 -- On the classifier's failure path, each of the four axis values
is an independently drawn pseudo-random integer in `[0, 50)`, and the
four draws carry no guarantee of summing to 100 (a valid draw whose sum
differs from 100 exists). -/
theorem callGeminiAI_fallback_spec (q1 q2 q3 q4 : ℚ)
    (h1 : 0 ≤ q1 ∧ q1 < 1) (h2 : 0 ≤ q2 ∧ q2 < 1)
    (h3 : 0 ≤ q3 ∧ q3 < 1) (h4 : 0 ≤ q4 ∧ q4 < 1) :
    (0 ≤ fallbackDraw q1 ∧ fallbackDraw q1 < 50) ∧
    (0 ≤ fallbackDraw q2 ∧ fallbackDraw q2 < 50) ∧
    (0 ≤ fallbackDraw q3 ∧ fallbackDraw q3 < 50) ∧
    (0 ≤ fallbackDraw q4 ∧ fallbackDraw q4 < 50) ∧
    callGeminiAI none q1 q2 q3 q4 =
      Scores.mk (fallbackDraw q1).toNat (fallbackDraw q2).toNat
        (fallbackDraw q3).toNat (fallbackDraw q4).toNat ∧
    (∃ p1 p2 p3 p4 : ℚ, (0 ≤ p1 ∧ p1 < 1) ∧ (0 ≤ p2 ∧ p2 < 1) ∧ (0 ≤ p3 ∧ p3 < 1) ∧
      (0 ≤ p4 ∧ p4 < 1) ∧
      (scoresValues (callGeminiAI none p1 p2 p3 p4)).sum ≠ 100) := by
  have bound : ∀ q : ℚ, 0 ≤ q → q < 1 → 0 ≤ fallbackDraw q ∧ fallbackDraw q < 50 := by
    intro q hq0 hq1
    constructor
    · exact Int.floor_nonneg.mpr (by positivity)
    · apply Int.floor_lt.mpr
      push_cast
      nlinarith
  refine ⟨bound q1 h1.1 h1.2, bound q2 h2.1 h2.2, bound q3 h3.1 h3.2, bound q4 h4.1 h4.2,
    rfl, 0, 0, 0, 0, by norm_num, by norm_num, by norm_num, by norm_num, ?_⟩
  have hz : fallbackDraw 0 = 0 := by simp [fallbackDraw]
  simp [callGeminiAI, scoresValues, hz]

/-- Witness for C4 at the draws `(0, 1/2, 1/4, 3/4)`. -/
theorem callGeminiAI_fallback_spec_witness :
    (0 ≤ fallbackDraw 0 ∧ fallbackDraw 0 < 50) ∧
    (0 ≤ fallbackDraw (1/2) ∧ fallbackDraw (1/2) < 50) ∧
    (0 ≤ fallbackDraw (1/4) ∧ fallbackDraw (1/4) < 50) ∧
    (0 ≤ fallbackDraw (3/4) ∧ fallbackDraw (3/4) < 50) ∧
    callGeminiAI none 0 (1/2) (1/4) (3/4) =
      Scores.mk (fallbackDraw 0).toNat (fallbackDraw (1/2)).toNat
        (fallbackDraw (1/4)).toNat (fallbackDraw (3/4)).toNat ∧
    (∃ p1 p2 p3 p4 : ℚ, (0 ≤ p1 ∧ p1 < 1) ∧ (0 ≤ p2 ∧ p2 < 1) ∧ (0 ≤ p3 ∧ p3 < 1) ∧
      (0 ≤ p4 ∧ p4 < 1) ∧
      (scoresValues (callGeminiAI none p1 p2 p3 p4)).sum ≠ 100) :=
  callGeminiAI_fallback_spec 0 (1/2) (1/4) (3/4)
    (by norm_num) (by norm_num) (by norm_num) (by norm_num)

lemma toggleLike_consistent (u m : String) (s : WallStore) (h : Consistent s) :
    Consistent (toggleLike u m s) := by
  intro x
  unfold toggleLike
  by_cases hmem : (⟨u, m⟩ : LikeKey) ∈ s.records
  · simp only [hmem, if_true]
    by_cases hx : x = m
    · subst hx
      have hmemf : (⟨u, x⟩ : LikeKey) ∈ s.records.filter (fun k => k.msg = x) := by
        simp [Finset.mem_filter, hmem]
      have hcard : 0 < (s.records.filter (fun k => k.msg = x)).card :=
        Finset.card_pos.mpr ⟨_, hmemf⟩
      rw [if_pos rfl, h x, Finset.filter_erase, Finset.card_erase_of_mem hmemf]
      omega
    · rw [if_neg hx, h x, Finset.filter_erase, Finset.erase_eq_of_not_mem]
      simp only [Finset.mem_filter]
      rintro ⟨-, hk⟩
      exact hx hk.symm
  · simp only [hmem, if_false]
    by_cases hx : x = m
    · subst hx
      have hnot : (⟨u, x⟩ : LikeKey) ∉ s.records.filter (fun k => k.msg = x) := by
        simp [Finset.mem_filter, hmem]
      rw [if_pos rfl, h x, Finset.filter_insert, if_pos rfl,
        Finset.card_insert_of_not_mem hnot]
      omega
    · rw [if_neg hx, h x, Finset.filter_insert, if_neg (by simpa using fun hk => hx hk.symm)]

lemma applyToggles_consistent (ops : List (String × String)) (s : WallStore)
    (h : Consistent s) : Consistent (applyToggles ops s) := by
  induction ops generalizing s with
  | nil => exact h
  | cons p rest ih =>
      exact ih (toggleLike p.1 p.2 s) (toggleLike_consistent p.1 p.2 s h)

/-- C1 -- From any state satisfying the counter/record invariant, no
sequence of completed `toggleLike` calls can drive a message's `likes`
value negative; moreover, when no like record exists for
`(identity, messageId)`, the call never issues a decrement — it performs
the like branch, incrementing the counter by 1. -/
theorem toggleLike_likes_nonneg (init : WallStore) (h : Consistent init)
    (ops : List (String × String)) (m : String) :
    0 ≤ (applyToggles ops init).likes m ∧
    (∀ u s, (⟨u, m⟩ : LikeKey) ∉ s.records →
      (toggleLike u m s).likes m = s.likes m + 1) := by
  constructor
  · rw [applyToggles_consistent ops init h m]
    exact Int.ofNat_nonneg _
  · intro u s hnot
    simp [toggleLike, hnot]

/-- Witness for C1: the empty store (no like records, all counters zero)
is consistent, and after the toggle sequence
`[(u1, m1), (u1, m1), (u2, m1)]` the counter of `m1` is nonnegative. -/
theorem toggleLike_likes_nonneg_witness :
    0 ≤ (applyToggles [("u1", "m1"), ("u1", "m1"), ("u2", "m1")]
      (WallStore.mk ∅ (fun _ => 0))).likes "m1" :=
  (toggleLike_likes_nonneg (WallStore.mk ∅ (fun _ => 0))
    (fun m => by simp) [("u1", "m1"), ("u1", "m1"), ("u2", "m1")] "m1").1

/-- C5 -- Toggling like twice in succession for the same identity and
message, with both two-step write pairs completing and no interleaved
writes, returns the like-record state and the message's `likes` counter
to exactly their original values. -/
theorem toggleLike_toggleLike (u m : String) (s : WallStore) :
    toggleLike u m (toggleLike u m s) = s := by
  by_cases hmem : (⟨u, m⟩ : LikeKey) ∈ s.records
  · have e1 : toggleLike u m s =
        WallStore.mk (s.records.erase ⟨u, m⟩)
          (fun x => if x = m then s.likes x - 1 else s.likes x) := by
      unfold toggleLike
      rw [if_pos hmem]
    have hnot : (⟨u, m⟩ : LikeKey) ∉ s.records.erase ⟨u, m⟩ := Finset.not_mem_erase _ _
    have e2 : toggleLike u m (WallStore.mk (s.records.erase ⟨u, m⟩)
        (fun x => if x = m then s.likes x - 1 else s.likes x)) =
          WallStore.mk (insert ⟨u, m⟩ (s.records.erase ⟨u, m⟩))
            (fun x => if x = m then (if x = m then s.likes x - 1 else s.likes x) + 1
              else (if x = m then s.likes x - 1 else s.likes x)) := by
      unfold toggleLike
      rw [if_neg hnot]
    rw [e1, e2]
    ext x
    · rw [Finset.insert_erase hmem]
    · by_cases hx : x = m <;> simp [hx]
  · have e1 : toggleLike u m s =
        WallStore.mk (insert ⟨u, m⟩ s.records)
          (fun x => if x = m then s.likes x + 1 else s.likes x) := by
      unfold toggleLike
      rw [if_neg hmem]
    have hmem2 : (⟨u, m⟩ : LikeKey) ∈ insert (⟨u, m⟩ : LikeKey) s.records :=
      Finset.mem_insert_self _ _
    have e2 : toggleLike u m (WallStore.mk (insert ⟨u, m⟩ s.records)
        (fun x => if x = m then s.likes x + 1 else s.likes x)) =
          WallStore.mk ((insert ⟨u, m⟩ s.records).erase ⟨u, m⟩)
            (fun x => if x = m then (if x = m then s.likes x + 1 else s.likes x) - 1
              else (if x = m then s.likes x + 1 else s.likes x)) := by
      unfold toggleLike
      rw [if_pos hmem2]
    rw [e1, e2]
    ext x
    · rw [Finset.erase_insert hmem]
    · by_cases hx : x = m <;> simp [hx]

/-- C6 -- `send` issues no write and leaves all state unchanged when the
text is blank, a submission is in flight, or no identity is resolved; an
accepted submission writes exactly the record
`{text, scores := classify text, likes := 0, userId}`, and on a
successful write the success confirmation carries that record with the
newly assigned id and the input is cleared. -/
theorem send_spec (text : String) (isAnalyzing : Bool) (user : Option String)
    (classify : String → Scores) (writeResult : Option String) :
    ((isBlank text = true ∨ isAnalyzing = true ∨ user = none) →
      send text isAnalyzing user classify writeResult =
        SendResult.mk none none text isAnalyzing) ∧
    (∀ uid, isBlank text = false → isAnalyzing = false → user = some uid →
      (send text isAnalyzing user classify writeResult).attempted =
        some (MsgData.mk text (classify text) 0 uid) ∧
      (∀ docId, writeResult = some docId →
        (send text isAnalyzing user classify writeResult).success =
          some (MsgData.mk text (classify text) 0 uid, docId) ∧
        (send text isAnalyzing user classify writeResult).textAfter = "") ∧
      (send text isAnalyzing user classify writeResult).analyzingAfter = false) := by
  constructor
  · intro h
    simp only [send, h, if_true]
  · intro uid htext hflag huser
    subst huser
    subst hflag
    cases writeResult with
    | none => simp [send, htext]
    | some docId => simp [send, htext]

/-- Witness for C6: a concrete rejected blank submission and a concrete
accepted submission `"hello"` by identity `"u1"` with a successful
write. -/
theorem send_spec_witness :
    send "  " false (some "u1") (fun _ => Scores.mk 45 20 10 25) (some "doc1") =
      SendResult.mk none none "  " false ∧
    (send "hello" false (some "u1") (fun _ => Scores.mk 45 20 10 25)
        (some "doc1")).attempted =
      some (MsgData.mk "hello" (Scores.mk 45 20 10 25) 0 "u1") := by
  constructor
  · exact (send_spec "  " false (some "u1") _ (some "doc1")).1 (Or.inl (by decide))
  · exact ((send_spec "hello" false (some "u1") (fun _ => Scores.mk 45 20 10 25)
      (some "doc1")).2 "u1" (by decide) rfl rfl).1

/-- C7 -- The visitor input view receives exactly the first ten elements
of the message list sorted by timestamp descending: its length is
`min 10` the message count, it is pairwise descending by timestamp, the
sorted list is a permutation of the live set, every rendered message is
at least as recent as every non-rendered one, and when the set has ten
or fewer messages all of them are rendered in sorted order. -/
theorem visitorMessages_spec (msgs : List Msg) :
    (visitorMessages msgs).length = min 10 msgs.length ∧
    (visitorMessages msgs).Pairwise (fun a b => tsKey b ≤ tsKey a) ∧
    (sortedMessages msgs).Perm msgs ∧
    visitorMessages msgs = (sortedMessages msgs).take 10 ∧
    (∀ a ∈ visitorMessages msgs, ∀ b ∈ (sortedMessages msgs).drop 10, tsKey b ≤ tsKey a) ∧
    (msgs.length ≤ 10 → visitorMessages msgs = sortedMessages msgs) := by
  have htrans : ∀ (a b c : Msg), msgLe a b = true → msgLe b c = true → msgLe a c = true := by
    intro a b c hab hbc
    simp only [msgLe, decide_eq_true_eq] at hab hbc ⊢
    omega
  have htotal : ∀ (a b : Msg), (msgLe a b || msgLe b a) = true := by
    intro a b
    simp only [msgLe, Bool.or_eq_true, decide_eq_true_eq]
    omega
  have hsorted : (sortedMessages msgs).Pairwise (fun a b => tsKey b ≤ tsKey a) :=
    (List.sorted_mergeSort htrans htotal msgs).imp
      (fun h => by simpa [msgLe, decide_eq_true_eq] using h)
  refine ⟨?_, ?_, List.mergeSort_perm msgs msgLe, rfl, ?_, ?_⟩
  · simp [visitorMessages, sortedMessages, List.length_take, List.length_mergeSort]
  · exact hsorted.sublist (List.take_sublist 10 _)
  · intro a ha b hb
    have hsplit := List.pairwise_append.mp
      (show ((sortedMessages msgs).take 10 ++ (sortedMessages msgs).drop 10).Pairwise
          (fun a b => tsKey b ≤ tsKey a) by
        rw [List.take_append_drop]
        exact hsorted)
    exact hsplit.2.2 a ha b hb
  · intro hlen
    apply List.take_of_length_le
    rw [sortedMessages, List.length_mergeSort]
    exact hlen

/-- Witness for C7: a two-message set is rendered whole and in sorted
order. -/
theorem visitorMessages_spec_witness :
    visitorMessages [Msg.mk "m1" "one" "u1" none none (some 5),
        Msg.mk "m2" "two" "u1" none none (some 9)] =
      sortedMessages [Msg.mk "m1" "one" "u1" none none (some 5),
        Msg.mk "m2" "two" "u1" none none (some 9)] :=
  (visitorMessages_spec _).2.2.2.2.2 (by decide)

/-- C10 -- The admin aggregate mood distribution is total: the empty
list yields 0 for every axis (the divisor is replaced by 1, so no
division by zero), a message lacking a scores object contributes 0 to
every axis sum, and for a non-empty list each axis value is the rounded
mean of that axis over all messages. -/
theorem stats_spec :
    stats ([] : List Msg) =
      [(Axis.POSITIVE, 0), (Axis.CALM, 0), (Axis.ENERGETIC, 0), (Axis.DEEP, 0)] ∧
    (∀ (m : Msg) (msgs : List Msg), m.scores = none →
      ∀ k, axisSum (m :: msgs) k = axisSum msgs k) ∧
    (∀ msgs : List Msg, msgs ≠ [] →
      stats msgs =
        axes.map (fun k => (k, jsRound ((axisSum msgs k : ℚ) / (msgs.length : ℚ))))) := by
  refine ⟨?_, ?_, ?_⟩
  · simp [stats, axes, axisSum, statsTotal]
    norm_num [jsRound_zero]
  · intro m msgs h k
    simp [axisSum, scoreOrZero, h]
  · intro msgs h
    have htot : statsTotal msgs = msgs.length := by
      unfold statsTotal
      rw [if_neg]
      simpa [List.length_eq_zero] using h
    rw [stats, htot]

/-- Witness for C10: a scoreless record of the earlier program variant
contributes nothing to the sums, and the one-element list's stats divide
by its length. -/
theorem stats_spec_witness :
    axisSum [handleSubmitRecord "d1" "hi" "u1" none] Axis.POSITIVE =
      axisSum [] Axis.POSITIVE ∧
    stats [handleSubmitRecord "d1" "hi" "u1" none] =
      axes.map (fun k => (k, jsRound ((axisSum [handleSubmitRecord "d1" "hi" "u1" none] k : ℚ) /
        (([handleSubmitRecord "d1" "hi" "u1" none] : List Msg).length : ℚ)))) := by
  constructor
  · exact stats_spec.2.1 _ [] rfl Axis.POSITIVE
  · exact stats_spec.2.2 _ (by simp)

lemma scoreEntries_get (s : Scores) : ∀ p ∈ scoreEntries s, s.get p.1 = p.2 := by
  intro p hp
  simp only [scoreEntries, List.mem_cons, List.not_mem_nil, or_false] at hp
  rcases hp with rfl | rfl | rfl | rfl <;> rfl

lemma sortScoreEntries_pairwise (s : Scores) :
    (sortScoreEntries s).Pairwise (fun a b => b.2 ≤ a.2) := by
  have htrans : ∀ (a b c : Axis × Nat),
      entryLe a b = true → entryLe b c = true → entryLe a c = true := by
    intro a b c hab hbc
    simp only [entryLe, decide_eq_true_eq] at hab hbc ⊢
    omega
  have htotal : ∀ (a b : Axis × Nat), (entryLe a b || entryLe b a) = true := by
    intro a b
    simp only [entryLe, Bool.or_eq_true, decide_eq_true_eq]
    omega
  exact (List.sorted_mergeSort htrans htotal (scoreEntries s)).imp
    (fun h => by simpa [entryLe, decide_eq_true_eq] using h)

lemma sortScoreEntries_ne_nil (s : Scores) : sortScoreEntries s ≠ [] := by
  intro h
  simpa [sortScoreEntries, scoreEntries, List.length_mergeSort] using
    congrArg List.length h

lemma topAxis_max (s : Scores) : ∀ a : Axis, s.get a ≤ s.get (topAxis s) := by
  intro a
  have hne := sortScoreEntries_ne_nil s
  have htop : topAxis s = ((sortScoreEntries s).head hne).1 := rfl
  have he_mem : (sortScoreEntries s).head hne ∈ sortScoreEntries s := List.head_mem hne
  have he_src : (sortScoreEntries s).head hne ∈ scoreEntries s := by
    unfold sortScoreEntries at he_mem
    exact List.mem_mergeSort.mp he_mem
  have hget_e : s.get ((sortScoreEntries s).head hne).1 = ((sortScoreEntries s).head hne).2 :=
    scoreEntries_get s _ he_src
  have ha_src : (a, s.get a) ∈ scoreEntries s := by
    cases a <;> simp [scoreEntries, Scores.get]
  have ha_mem : (a, s.get a) ∈ sortScoreEntries s := by
    unfold sortScoreEntries
    exact List.mem_mergeSort.mpr ha_src
  have hl : sortScoreEntries s = (sortScoreEntries s).head hne :: (sortScoreEntries s).tail :=
    (List.head_cons_tail _ hne).symm
  have hp := sortScoreEntries_pairwise s
  rw [hl] at hp ha_mem
  rw [htop, hget_e]
  rcases List.mem_cons.mp ha_mem with heq | htail
  · exact le_of_eq (congrArg Prod.snd heq)
  · exact List.rel_of_pairwise_cons hp htail

lemma escQuotes_append (a b : String) :
    escQuotes (a ++ b) = escQuotes a ++ escQuotes b := by
  cases a with
  | mk la =>
      cases b with
      | mk lb =>
          show String.mk ((la ++ lb).flatMap _) = String.mk (la.flatMap _ ++ lb.flatMap _)
          rw [List.flatMap_append]

lemma escQuotes_quote : escQuotes "\"" = "\"\"" := by decide

lemma escQuotes_singleton (c : Char) (h : c ≠ '"') :
    escQuotes (String.singleton c) = String.singleton c := by
  simp [escQuotes, String.singleton, String.push, h]

/-- C8 -- For a message list whose members all carry a scores object,
`exportCSV` produces the header `ID,Content,UID,Likes,Sentiment` followed
by one row per message in list order; the text field is quote-escaped
(escaping is a homomorphism doubling each double-quote and fixing every
other character), the likes column defaults to 0 when absent, and the
sentiment column names a highest-scoring axis of the message's score
vector. -/
theorem exportCSV_spec (msgs : List Msg) (h : ∀ m ∈ msgs, m.scores ≠ none) :
    ∃ rows : List String,
      csvRows msgs = some rows ∧
      exportCSV msgs =
        some ("ID,Content,UID,Likes,Sentiment\n" ++ String.intercalate "\n" rows) ∧
      List.Forall₂ (fun (m : Msg) (row : String) => ∃ s : Scores, m.scores = some s ∧
        row = "\"" ++ m.id ++ "\",\"" ++ escQuotes m.text ++ "\",\"" ++ m.userId
          ++ "\"," ++ toString (m.likes.getD 0) ++ ",\"" ++ axisName (topAxis s) ++ "\"" ∧
        (∀ a : Axis, s.get a ≤ s.get (topAxis s))) msgs rows ∧
      (∀ a b : String, escQuotes (a ++ b) = escQuotes a ++ escQuotes b) ∧
      escQuotes "\"" = "\"\"" ∧
      (∀ c : Char, c ≠ '"' → escQuotes (String.singleton c) = String.singleton c) := by
  induction msgs with
  | nil =>
      refine ⟨[], rfl, rfl, List.Forall₂.nil,
        escQuotes_append, escQuotes_quote, escQuotes_singleton⟩
  | cons m ms ih =>
      obtain ⟨s, hs⟩ : ∃ s, m.scores = some s := by
        cases hsc : m.scores with
        | none => exact absurd hsc (h m (List.mem_cons_self m ms))
        | some s => exact ⟨s, rfl⟩
      obtain ⟨rows', hmap', hexp', hfa', -⟩ :=
        ih (fun x hx => h x (List.mem_cons_of_mem m hx))
      have hrow : csvRow m =
          some ("\"" ++ m.id ++ "\",\"" ++ escQuotes m.text ++ "\",\"" ++ m.userId
            ++ "\"," ++ toString (m.likes.getD 0) ++ ",\"" ++ axisName (topAxis s) ++ "\"") := by
        simp [csvRow, hs]
      refine ⟨("\"" ++ m.id ++ "\",\"" ++ escQuotes m.text ++ "\",\"" ++ m.userId
        ++ "\"," ++ toString (m.likes.getD 0) ++ ",\"" ++ axisName (topAxis s) ++ "\"") :: rows',
        ?_, ?_, ?_, escQuotes_append, escQuotes_quote, escQuotes_singleton⟩
      · rw [csvRows, hrow, hmap']
      · rw [exportCSV, csvRows, hrow, hmap']
        rfl
      · exact List.Forall₂.cons ⟨s, hs, rfl, topAxis_max s⟩ hfa'

/-- Witness for C8 on a concrete one-message list whose text contains a
double quote. -/
theorem exportCSV_spec_witness :
    ∃ rows : List String,
      csvRows [Msg.mk "m1" "say \"hi\"" "u1" none (some (Scores.mk 10 40 30 20))
        (some 1)] = some rows ∧
      exportCSV [Msg.mk "m1" "say \"hi\"" "u1" none (some (Scores.mk 10 40 30 20)) (some 1)] =
        some ("ID,Content,UID,Likes,Sentiment\n" ++ String.intercalate "\n" rows) ∧
      List.Forall₂ (fun (m : Msg) (row : String) => ∃ s : Scores, m.scores = some s ∧
        row = "\"" ++ m.id ++ "\",\"" ++ escQuotes m.text ++ "\",\"" ++ m.userId
          ++ "\"," ++ toString (m.likes.getD 0) ++ ",\"" ++ axisName (topAxis s) ++ "\"" ∧
        (∀ a : Axis, s.get a ≤ s.get (topAxis s)))
        [Msg.mk "m1" "say \"hi\"" "u1" none (some (Scores.mk 10 40 30 20)) (some 1)] rows ∧
      (∀ a b : String, escQuotes (a ++ b) = escQuotes a ++ escQuotes b) ∧
      escQuotes "\"" = "\"\"" ∧
      (∀ c : Char, c ≠ '"' → escQuotes (String.singleton c) = String.singleton c) :=
  exportCSV_spec _ (by decide)

/-- C9 -- `exportCSV` is only defined when every message carries a scores
object: a list containing a message whose `scores` field is absent makes
the row serialization undefined, so the export fails rather than
producing a row; and such messages can exist, as the earlier program
variant's `handleSubmit` writes records with no scores field at all. -/
theorem exportCSV_undefined_without_scores (msgs : List Msg) (m : Msg)
    (h1 : m ∈ msgs) (h2 : m.scores = none) :
    exportCSV msgs = none ∧
    (∀ docId text uid ts, (handleSubmitRecord docId text uid ts).scores = none) := by
  constructor
  · have hnone : csvRow m = none := by simp [csvRow, h2]
    have key : ∀ (l : List Msg), m ∈ l → csvRows l = none := by
      intro l
      induction l with
      | nil => intro hc; cases hc
      | cons a t ih =>
          intro hml
          rcases List.mem_cons.mp hml with rfl | hmem
          · rw [csvRows, hnone]
          · rw [csvRows, ih hmem]
            cases hc : csvRow a <;> rfl
    rw [exportCSV, key msgs h1]
    rfl
  · intro docId text uid ts
    rfl

/-- Witness for C9: exporting a list holding one record written by the
earlier variant (which has no scores) fails. -/
theorem exportCSV_undefined_without_scores_witness :
    exportCSV [handleSubmitRecord "d1" "hello" "u1" none] = none :=
  (exportCSV_undefined_without_scores [handleSubmitRecord "d1" "hello" "u1" none]
    (handleSubmitRecord "d1" "hello" "u1" none) (List.mem_cons_self _ _) rfl).1

end UnframeWall
